import Mathlib

/-!
Verification of the alerting engine of CPU_BUDDY (`src/alert_engine.py`,
class `AlertEngine`).  The engine is embedded shallowly:

* metric values, timestamps and intervals are rationals (`ℚ`), cumulative
  CPU times are integers (`ℤ`, nanoseconds);
* the two mutable maps of the engine (`last_alert_time`,
  `_last_vm_cpu_time`) are modelled as functions to `Option`, threaded
  explicitly through each operation;
* `time.time()` is passed in as an explicit `now` argument (the Python
  code reads the clock inside `_throttle_ok`; within one evaluation the
  readings are interchangeable);
* alert keys are the f-string tags of the source
  (`"host_cpu"`, `f"proc_cpu_{pid}"`, `f"vm_mem_{name}"`, ...), modelled
  by the inductive `AKey` — the string encoding used by the source is
  injective on these shapes, so constructor identity is key identity;
* an emitted alert is recorded by its key (subject and message in the
  source are functions of the key and the values already in scope);
* a Python exception raised while parsing a malformed record is modelled
  by `Except`/a `malformed` constructor; `try/except` blocks become the
  corresponding case splits.
-/

/-- Alert keys, as built by the f-strings of `check_and_alert`. -/
inductive AKey where
  | host_cpu : AKey
  | host_mem : AKey
  | proc_cpu : Int → AKey
  | proc_mem : Int → AKey
  | vm_cpu : String → AKey
  | vm_mem : String → AKey
  deriving DecidableEq

/-- `self.last_alert_time`: key → timestamp of last emission. -/
def ThrottleMap : Type := AKey → Option ℚ

/-- `self._last_vm_cpu_time`: vm name → last cumulative cpuTime (ns). -/
def VmTimeMap : Type := String → Option ℤ

/-- `d[k] = v` on the throttle map. -/
def ThrottleMap.update (m : ThrottleMap) (k : AKey) (v : ℚ) : ThrottleMap :=
  fun k2 => if k2 = k then some v else m k2

/-- `d[n] = v` on the vm cpu-time map. -/
def VmTimeMap.update (m : VmTimeMap) (n : String) (v : ℤ) : VmTimeMap :=
  fun n2 => if n2 = n then some v else m n2

/-- The configuration keys the engine reads (`self.config.get(...)`);
`none` models an absent key, defaults are applied at each read site as in
the source. -/
structure Config where
  alert_throttle_seconds : Option ℚ
  host_cpu_percent : Option ℚ
  host_memory_percent : Option ℚ
  process_cpu_percent : Option ℚ
  process_memory_percent : Option ℚ
  vm_cpu_percent : Option ℚ
  vm_memory_percent : Option ℚ
  vm_cpu_time_delta_ns : Option ℤ
  poll_interval : Option ℚ

/-- A configuration with every key absent (all defaults in force). -/
def cfg0 : Config :=
  ⟨none, none, none, none, none, none, none, none, none⟩

/-- `config.get("alert_throttle_seconds", 60)`. -/
def throttle_window (cfg : Config) : ℚ :=
  cfg.alert_throttle_seconds.getD 60

/-- `AlertEngine._throttle_ok`, with the clock reading `now` made an
explicit argument.  Returns the boolean result and the updated
`last_alert_time` map.  `last_alert_time.get(key, 0)` defaults a missing
entry to `0`. -/
def throttle_ok (cfg : Config) (m : ThrottleMap) (key : AKey) (now : ℚ) :
    Bool × ThrottleMap :=
  let throttle := throttle_window cfg
  let last := (m key).getD 0
  if now - last < throttle then (false, m)
  else (true, m.update key now)

/-- `AlertEngine._vm_cpu_percent_from_delta`.  `interval_seconds = none`
models Python `None`.  Returns the optional percent (None = first sample
or delta not computable) and the updated `_last_vm_cpu_time` map. -/
def vm_cpu_percent_from_delta (m : VmTimeMap) (name : String)
    (cpu_time_ns : ℤ) (interval_seconds : Option ℚ) : Option ℚ × VmTimeMap :=
  match interval_seconds with
  | none => (none, m)
  | some i =>
    if i ≤ 0 then (none, m)
    else
      match m name with
      | none => (none, m.update name cpu_time_ns)
      | some prev =>
        let delta_ns := cpu_time_ns - prev
        let m2 := m.update name cpu_time_ns
        if delta_ns ≤ 0 then (none, m2)
        else (some ((delta_ns : ℚ) / 1000000000 / i * 100), m2)

/-- Host metrics: the `cpu_percent` and `mem_percent` attributes read by
the host checks. -/
structure HostMetrics where
  cpu_percent : ℚ
  mem_percent : ℚ

/-- The `host` entry of a snapshot: present and well formed, or present
but malformed (a field on which the first threshold comparison raises,
e.g. a non-numeric percent; the `try` around the host checks catches it
before any alert is emitted). -/
inductive HostData where
  | valid : HostMetrics → HostData
  | malformed : HostData

/-- One process record: the `pid`, `name`, `cpu` and `mem_percent`
attributes read by the process checks. -/
structure ProcRec where
  pid : ℤ
  name : String
  cpu : ℚ
  mem_percent : ℚ
  deriving DecidableEq

/-- A raw numeric entry of a VM dict, as consumed by
`int(vm.get(k, 0) or 0)`: the key may be absent (`.get` default `0`),
present but falsy (`None`/`0`, which `or 0` turns into `0`), a number,
or junk on which `int()` raises. -/
inductive RawNum where
  | absent : RawNum
  | null : RawNum
  | num : ℤ → RawNum
  | junk : RawNum
  deriving DecidableEq

/-- `int(vm.get(k, 0) or 0)`; `Except.error ()` models `int()` raising. -/
def parseNum : RawNum → Except Unit ℤ
  | RawNum.absent => Except.ok 0
  | RawNum.null => Except.ok 0
  | RawNum.num n => Except.ok n
  | RawNum.junk => Except.error ()

/-- One VM dict of a snapshot (keys `name`, `vcpus`, `maxMemKB`,
`memKB`, `cpuTime`; `id` and `state` are never read by the engine). -/
structure VMRec where
  name : String
  vcpus : ℤ
  maxMemKB : RawNum
  memKB : RawNum
  cpuTime : RawNum

/-- The engine's mutable state: `self.last_alert_time` and
`self._last_vm_cpu_time`. -/
structure EngineState where
  last_alert_time : ThrottleMap
  last_vm_cpu_time : VmTimeMap

/-- A snapshot as consumed by `check_and_alert`.  `interval = none`
models the `"interval"` key being absent; `interval = some none` models
the key present with value `None`. -/
structure Snapshot where
  host : Option HostData
  processes : List ProcRec
  vms : List VMRec
  interval : Option (Option ℚ)

/-- The host-level checks of `check_and_alert`: CPU then memory, each
against `host_alerts` thresholds defaulting to 100, each gated by
`_throttle_ok`.  Returns the emitted alert keys and the updated throttle
map.  A malformed host raises at the first comparison and the
surrounding `try` swallows it with no state change. -/
def host_checks (cfg : Config) (now : ℚ) (host : Option HostData)
    (m : ThrottleMap) : List AKey × ThrottleMap :=
  match host with
  | none => ([], m)
  | some HostData.malformed => ([], m)
  | some (HostData.valid h) =>
    let r1 :=
      if h.cpu_percent ≥ cfg.host_cpu_percent.getD 100 then
        let t := throttle_ok cfg m AKey.host_cpu now
        (if t.1 then [AKey.host_cpu] else ([] : List AKey), t.2)
      else ([], m)
    let r2 :=
      if h.mem_percent ≥ cfg.host_memory_percent.getD 100 then
        let t := throttle_ok cfg r1.2 AKey.host_mem now
        (if t.1 then [AKey.host_mem] else ([] : List AKey), t.2)
      else ([], r1.2)
    (r1.1 ++ r2.1, r2.2)

/-- The body of the per-process loop of `check_and_alert`: the CPU check
(key `proc_cpu_<pid>`) then the memory check (key `proc_mem_<pid>`). -/
def proc_check_one (cfg : Config) (now : ℚ) (p : ProcRec)
    (m : ThrottleMap) : List AKey × ThrottleMap :=
  let r1 :=
    if p.cpu ≥ cfg.process_cpu_percent.getD 100 then
      let t := throttle_ok cfg m (AKey.proc_cpu p.pid) now
      (if t.1 then [AKey.proc_cpu p.pid] else ([] : List AKey), t.2)
    else ([], m)
  let r2 :=
    if p.mem_percent ≥ cfg.process_memory_percent.getD 100 then
      let t := throttle_ok cfg r1.2 (AKey.proc_mem p.pid) now
      (if t.1 then [AKey.proc_mem p.pid] else ([] : List AKey), t.2)
    else ([], r1.2)
  (r1.1 ++ r2.1, r2.2)

/-- `sorted(procs, key=lambda x: x.cpu, reverse=True)`: a stable sort,
descending on `cpu` (ties keep input order). -/
def sort_procs (procs : List ProcRec) : List ProcRec :=
  procs.mergeSort (fun a b => decide (b.cpu ≤ a.cpu))

/-- Fold of `proc_check_one` over a list of process records, threading
the throttle map. -/
def proc_checks_list (cfg : Config) (now : ℚ) :
    List ProcRec → ThrottleMap → List AKey × ThrottleMap
  | [], m => ([], m)
  | p :: ps, m =>
    let r1 := proc_check_one cfg now p m
    let r2 := proc_checks_list cfg now ps r1.2
    (r1.1 ++ r2.1, r2.2)

/-- The process-level checks of `check_and_alert`: only the first 20
records of the stable descending sort are evaluated
(`sorted(...)[:20]`).  With well-formed records the surrounding batch
`try` never fires. -/
def proc_checks (cfg : Config) (now : ℚ) (procs : List ProcRec)
    (m : ThrottleMap) : List AKey × ThrottleMap :=
  proc_checks_list cfg now ((sort_procs procs).take 20) m

/-- `mem_percent = (mem_kb / max_mem_kb) * 100.0 if max_mem_kb > 0 else None`. -/
def vm_mem_percent (mem_kb max_mem_kb : ℤ) : Option ℚ :=
  if max_mem_kb > 0 then some ((mem_kb : ℚ) / (max_mem_kb : ℚ) * 100)
  else none

/-- The VM CPU alert: skipped entirely when the delta-based percent is
`None` (`if cpu_percent is not None`). -/
def vm_cpu_alert_step (cfg : Config) (now : ℚ) (name : String)
    (ocp : Option ℚ) (m : ThrottleMap) : List AKey × ThrottleMap :=
  match ocp with
  | some c =>
    if c ≥ cfg.vm_cpu_percent.getD 100 then
      let t := throttle_ok cfg m (AKey.vm_cpu name) now
      (if t.1 then [AKey.vm_cpu name] else ([] : List AKey), t.2)
    else ([], m)
  | none => ([], m)

/-- The VM memory alert: skipped entirely when `mem_percent is None`. -/
def vm_mem_alert_step (cfg : Config) (now : ℚ) (name : String)
    (omp : Option ℚ) (m : ThrottleMap) : List AKey × ThrottleMap :=
  match omp with
  | some mp =>
    if mp ≥ cfg.vm_memory_percent.getD 100 then
      let t := throttle_ok cfg m (AKey.vm_mem name) now
      (if t.1 then [AKey.vm_mem name] else ([] : List AKey), t.2)
    else ([], m)
  | none => ([], m)

/-- The per-VM loop body after the three `int(...)` conversions
succeeded: compute the memory percent, the delta-based CPU percent
(which updates the baseline map), then the CPU alert, the memory alert,
and finally the declared-but-dead `cpu_time_delta_ns` branch whose body
is `pass`. -/
def vm_check_body (cfg : Config) (now : ℚ) (interval : Option ℚ)
    (vm : VMRec) (max_mem_kb mem_kb cpu_time_ns : ℤ) (st : EngineState) :
    List AKey × EngineState :=
  let memp := vm_mem_percent mem_kb max_mem_kb
  let cr := vm_cpu_percent_from_delta st.last_vm_cpu_time vm.name
    cpu_time_ns interval
  let r1 := vm_cpu_alert_step cfg now vm.name cr.1 st.last_alert_time
  let r2 := vm_mem_alert_step cfg now vm.name memp r1.2
  let r3 : List AKey :=
    if cfg.vm_cpu_time_delta_ns.isSome then [] else []
  (r1.1 ++ r2.1 ++ r3, ⟨r2.2, cr.2⟩)

/-- Dispatch on the three `int(...)` conversions: if any raises, the
per-VM `except` swallows the exception with no alert and no state
change; otherwise run the checks of the loop body. -/
def vm_check_one (cfg : Config) (now : ℚ) (interval : Option ℚ)
    (vm : VMRec) (st : EngineState) : List AKey × EngineState :=
  match parseNum vm.maxMemKB, parseNum vm.memKB, parseNum vm.cpuTime with
  | Except.ok max_mem_kb, Except.ok mem_kb, Except.ok cpu_time_ns =>
    vm_check_body cfg now interval vm max_mem_kb mem_kb cpu_time_ns st
  | _, _, _ => ([], st)

/-- Fold of `vm_check_one` over the VM list, threading the full engine
state. -/
def vm_checks_list (cfg : Config) (now : ℚ) (interval : Option ℚ) :
    List VMRec → EngineState → List AKey × EngineState
  | [], st => ([], st)
  | vm :: vms, st =>
    let r1 := vm_check_one cfg now interval vm st
    let r2 := vm_checks_list cfg now interval vms r1.2
    (r1.1 ++ r2.1, r2.2)

/-- `interval = snapshot.get("interval", self.config.get("poll_interval", 2))`:
the `poll_interval` fallback applies only when the key is absent from
the snapshot; a key present with value `None` yields `None`. -/
def snapshot_interval (cfg : Config) (snap : Snapshot) : Option ℚ :=
  match snap.interval with
  | none => some (cfg.poll_interval.getD 2)
  | some v => v

/-- `AlertEngine.check_and_alert`: host checks, then process checks,
then VM checks, threading throttle and baseline state.  Returns the
emitted alert keys in emission order and the final engine state. -/
def check_and_alert (cfg : Config) (now : ℚ) (snap : Snapshot)
    (st : EngineState) : List AKey × EngineState :=
  let rh := host_checks cfg now snap.host st.last_alert_time
  let rp := proc_checks cfg now snap.processes rh.2
  let rv := vm_checks_list cfg now (snapshot_interval cfg snap) snap.vms
    ⟨rp.2, st.last_vm_cpu_time⟩
  (rh.1 ++ rp.1 ++ rv.1, rv.2)

theorem throttle_map_update_self (m : ThrottleMap) (k : AKey) (v : ℚ) :
    m.update k v k = some v := by
  simp [ThrottleMap.update]

theorem throttle_map_update_other (m : ThrottleMap) (k k2 : AKey) (v : ℚ)
    (h : k2 ≠ k) : m.update k v k2 = m k2 := by
  simp [ThrottleMap.update, h]

theorem vmtime_map_update_self (m : VmTimeMap) (n : String) (v : ℤ) :
    m.update n v n = some v := by
  simp [VmTimeMap.update]

theorem vmtime_map_update_other (m : VmTimeMap) (n n2 : String) (v : ℤ)
    (h : n2 ≠ n) : m.update n v n2 = m n2 := by
  simp [VmTimeMap.update, h]

theorem throttle_ok_map_other (cfg : Config) (m : ThrottleMap) (key : AKey)
    (now : ℚ) (k2 : AKey) (h : k2 ≠ key) :
    (throttle_ok cfg m key now).2 k2 = m k2 := by
  unfold throttle_ok
  by_cases hc : now - (m key).getD 0 < throttle_window cfg
  · rw [if_pos hc]
  · rw [if_neg hc]
    exact throttle_map_update_other m key k2 now h

theorem throttle_ok_hit (cfg : Config) (m : ThrottleMap) (key : AKey)
    (now : ℚ) (hfresh : m key = none) (hw : throttle_window cfg ≤ now) :
    throttle_ok cfg m key now = (true, m.update key now) := by
  unfold throttle_ok
  rw [hfresh]
  rw [if_neg (by simp only [Option.getD_none]; linarith)]

theorem host_checks_keys (cfg : Config) (now : ℚ) (host : Option HostData)
    (m : ThrottleMap) (k : AKey) (hk : k ∈ (host_checks cfg now host m).1) :
    k = AKey.host_cpu ∨ k = AKey.host_mem := by
  match host with
  | none => exact absurd hk (by simp [host_checks])
  | some HostData.malformed => exact absurd hk (by simp [host_checks])
  | some (HostData.valid h) =>
    simp only [host_checks, List.mem_append] at hk
    rcases hk with hk | hk
    · left
      split at hk
      · split at hk <;> simp_all
      · simp at hk
    · right
      split at hk
      · split at hk <;> simp_all
      · simp at hk

theorem proc_check_one_keys (cfg : Config) (now : ℚ) (p : ProcRec)
    (m : ThrottleMap) (k : AKey) (hk : k ∈ (proc_check_one cfg now p m).1) :
    k = AKey.proc_cpu p.pid ∨ k = AKey.proc_mem p.pid := by
  simp only [proc_check_one, List.mem_append] at hk
  rcases hk with hk | hk
  · left
    split at hk
    · split at hk <;> simp_all
    · simp at hk
  · right
    split at hk
    · split at hk <;> simp_all
    · simp at hk

theorem proc_check_one_map_other (cfg : Config) (now : ℚ) (p : ProcRec)
    (m : ThrottleMap) (k : AKey) (h1 : k ≠ AKey.proc_cpu p.pid)
    (h2 : k ≠ AKey.proc_mem p.pid) :
    (proc_check_one cfg now p m).2 k = m k := by
  by_cases hcpu : p.cpu ≥ cfg.process_cpu_percent.getD 100 <;>
    by_cases hmem : p.mem_percent ≥ cfg.process_memory_percent.getD 100 <;>
      simp only [proc_check_one, if_pos, if_neg, hcpu, hmem, if_true,
        if_false, ite_true, ite_false] <;>
      simp only [throttle_ok_map_other cfg _ _ _ _ h2,
        throttle_ok_map_other cfg _ _ _ _ h1]

theorem proc_check_one_cpu_hit (cfg : Config) (now : ℚ) (p : ProcRec)
    (m : ThrottleMap) (hw : throttle_window cfg ≤ now)
    (hfresh : m (AKey.proc_cpu p.pid) = none)
    (hthr : cfg.process_cpu_percent.getD 100 ≤ p.cpu) :
    AKey.proc_cpu p.pid ∈ (proc_check_one cfg now p m).1 := by
  simp only [proc_check_one, List.mem_append]
  left
  rw [if_pos hthr, throttle_ok_hit cfg m _ now hfresh hw]
  simp

theorem proc_checks_list_keys (cfg : Config) (now : ℚ) (l : List ProcRec)
    (m : ThrottleMap) (k : AKey)
    (hk : k ∈ (proc_checks_list cfg now l m).1) :
    ∃ p ∈ l, k = AKey.proc_cpu p.pid ∨ k = AKey.proc_mem p.pid := by
  induction l generalizing m with
  | nil => exact absurd hk (by simp [proc_checks_list])
  | cons q ps ih =>
    simp only [proc_checks_list, List.mem_append] at hk
    rcases hk with hk | hk
    · exact ⟨q, List.mem_cons_self q ps, proc_check_one_keys cfg now q m k hk⟩
    · obtain ⟨p, hp, hkp⟩ := ih _ hk
      exact ⟨p, List.mem_cons_of_mem q hp, hkp⟩

theorem proc_checks_list_hit (cfg : Config) (now : ℚ)
    (hw : throttle_window cfg ≤ now) (l : List ProcRec) (m : ThrottleMap)
    (p : ProcRec) (hp : p ∈ l)
    (hthr : cfg.process_cpu_percent.getD 100 ≤ p.cpu)
    (hfresh : m (AKey.proc_cpu p.pid) = none)
    (hq : ∀ q ∈ l, q = p ∨ q.pid ≠ p.pid) :
    AKey.proc_cpu p.pid ∈ (proc_checks_list cfg now l m).1 := by
  induction l generalizing m with
  | nil => exact absurd hp (List.not_mem_nil p)
  | cons q ps ih =>
    simp only [proc_checks_list, List.mem_append]
    rcases hq q (List.mem_cons_self q ps) with hqp | hqp
    · subst hqp
      exact Or.inl (proc_check_one_cpu_hit cfg now q m hw hfresh hthr)
    · have hpps : p ∈ ps := by
        rcases List.mem_cons.mp hp with h | h
        · exact absurd (congrArg ProcRec.pid h.symm) hqp
        · exact h
      have hne1 : AKey.proc_cpu p.pid ≠ AKey.proc_cpu q.pid := by
        intro hcon
        injection hcon with hcon2
        exact hqp hcon2.symm
      have hne2 : AKey.proc_cpu p.pid ≠ AKey.proc_mem q.pid := by
        simp
      have hfresh2 : (proc_check_one cfg now q m).2 (AKey.proc_cpu p.pid)
          = none := by
        rw [proc_check_one_map_other cfg now q m _ hne1 hne2]
        exact hfresh
      exact Or.inr (ih _ hpps hfresh2
        fun q2 hq2 => hq q2 (List.mem_cons_of_mem q hq2))

theorem vm_cpu_delta_ok (m : VmTimeMap) (name : String) (prev c : ℤ)
    (i : ℚ) (hprev : m name = some prev) (hi : 0 < i) (hlt : prev < c) :
    vm_cpu_percent_from_delta m name c (some i)
      = (some (((c - prev : ℤ) : ℚ) / 1000000000 / i * 100),
         m.update name c) := by
  simp only [vm_cpu_percent_from_delta]
  rw [if_neg (not_le.mpr hi), hprev]
  simp only [if_neg (by omega : ¬ c - prev ≤ 0)]

theorem vm_cpu_alert_step_keys (cfg : Config) (now : ℚ) (name : String)
    (ocp : Option ℚ) (m : ThrottleMap) (k : AKey)
    (hk : k ∈ (vm_cpu_alert_step cfg now name ocp m).1) :
    k = AKey.vm_cpu name := by
  rcases ocp with _ | c
  · simp [vm_cpu_alert_step] at hk
  · simp only [vm_cpu_alert_step] at hk
    split at hk
    · split at hk <;> simp_all
    · simp at hk

theorem vm_cpu_alert_step_map_other (cfg : Config) (now : ℚ)
    (name : String) (ocp : Option ℚ) (m : ThrottleMap) (k : AKey)
    (h : k ≠ AKey.vm_cpu name) :
    (vm_cpu_alert_step cfg now name ocp m).2 k = m k := by
  rcases ocp with _ | c
  · rfl
  · simp only [vm_cpu_alert_step]
    split
    · exact throttle_ok_map_other cfg m (AKey.vm_cpu name) now k h
    · rfl

theorem vm_cpu_alert_step_hit (cfg : Config) (now : ℚ) (name : String)
    (c : ℚ) (m : ThrottleMap) (hfresh : m (AKey.vm_cpu name) = none)
    (hw : throttle_window cfg ≤ now)
    (hthr : cfg.vm_cpu_percent.getD 100 ≤ c) :
    AKey.vm_cpu name ∈ (vm_cpu_alert_step cfg now name (some c) m).1 := by
  simp only [vm_cpu_alert_step]
  rw [if_pos hthr, throttle_ok_hit cfg m _ now hfresh hw]
  simp

theorem vm_mem_alert_step_keys (cfg : Config) (now : ℚ) (name : String)
    (omp : Option ℚ) (m : ThrottleMap) (k : AKey)
    (hk : k ∈ (vm_mem_alert_step cfg now name omp m).1) :
    k = AKey.vm_mem name := by
  rcases omp with _ | mp
  · simp [vm_mem_alert_step] at hk
  · simp only [vm_mem_alert_step] at hk
    split at hk
    · split at hk <;> simp_all
    · simp at hk

theorem vm_mem_alert_step_hit (cfg : Config) (now : ℚ) (name : String)
    (mp : ℚ) (m : ThrottleMap) (hfresh : m (AKey.vm_mem name) = none)
    (hw : throttle_window cfg ≤ now)
    (hthr : cfg.vm_memory_percent.getD 100 ≤ mp) :
    AKey.vm_mem name ∈ (vm_mem_alert_step cfg now name (some mp) m).1 := by
  simp only [vm_mem_alert_step]
  rw [if_pos hthr, throttle_ok_hit cfg m _ now hfresh hw]
  simp

theorem vm_check_one_eq_body (cfg : Config) (now : ℚ) (i : Option ℚ)
    (vm : VMRec) (st : EngineState) (a b c : ℤ)
    (h1 : parseNum vm.maxMemKB = Except.ok a)
    (h2 : parseNum vm.memKB = Except.ok b)
    (h3 : parseNum vm.cpuTime = Except.ok c) :
    vm_check_one cfg now i vm st = vm_check_body cfg now i vm a b c st := by
  unfold vm_check_one
  rw [h1, h2, h3]

theorem vm_check_one_err (cfg : Config) (now : ℚ) (i : Option ℚ)
    (vm : VMRec) (st : EngineState)
    (h : parseNum vm.maxMemKB = Except.error ()
      ∨ parseNum vm.memKB = Except.error ()
      ∨ parseNum vm.cpuTime = Except.error ()) :
    vm_check_one cfg now i vm st = ([], st) := by
  unfold vm_check_one
  rcases hmax : parseNum vm.maxMemKB with u | a
  · rfl
  · rcases hmem : parseNum vm.memKB with u | b
    · rfl
    · rcases hct : parseNum vm.cpuTime with u | c
      · rfl
      · rcases h with h | h | h <;> simp_all

theorem vm_check_body_keys (cfg : Config) (now : ℚ) (i : Option ℚ)
    (vm : VMRec) (a b c : ℤ) (st : EngineState) (k : AKey)
    (hk : k ∈ (vm_check_body cfg now i vm a b c st).1) :
    k = AKey.vm_cpu vm.name ∨ k = AKey.vm_mem vm.name := by
  simp only [vm_check_body, List.mem_append] at hk
  rcases hk with (hk | hk) | hk
  · exact Or.inl (vm_cpu_alert_step_keys cfg now vm.name _ _ k hk)
  · exact Or.inr (vm_mem_alert_step_keys cfg now vm.name _ _ k hk)
  · split at hk <;> simp at hk

theorem vm_check_one_keys (cfg : Config) (now : ℚ) (i : Option ℚ)
    (vm : VMRec) (st : EngineState) (k : AKey)
    (hk : k ∈ (vm_check_one cfg now i vm st).1) :
    k = AKey.vm_cpu vm.name ∨ k = AKey.vm_mem vm.name := by
  rcases hmax : parseNum vm.maxMemKB with u | a
  · cases u
    rw [vm_check_one_err cfg now i vm st (Or.inl hmax)] at hk
    simp at hk
  · rcases hmem : parseNum vm.memKB with u | b
    · cases u
      rw [vm_check_one_err cfg now i vm st (Or.inr (Or.inl hmem))] at hk
      simp at hk
    · rcases hct : parseNum vm.cpuTime with u | c
      · cases u
        rw [vm_check_one_err cfg now i vm st (Or.inr (Or.inr hct))] at hk
        simp at hk
      · rw [vm_check_one_eq_body cfg now i vm st a b c hmax hmem hct] at hk
        exact vm_check_body_keys cfg now i vm a b c st k hk

theorem vm_checks_list_keys (cfg : Config) (now : ℚ) (i : Option ℚ)
    (l : List VMRec) (st : EngineState) (k : AKey)
    (hk : k ∈ (vm_checks_list cfg now i l st).1) :
    ∃ vm ∈ l, ∃ st2, k ∈ (vm_check_one cfg now i vm st2).1 := by
  induction l generalizing st with
  | nil => exact absurd hk (by simp [vm_checks_list])
  | cons vm vms ih =>
    simp only [vm_checks_list, List.mem_append] at hk
    rcases hk with hk | hk
    · exact ⟨vm, List.mem_cons_self vm vms, st, hk⟩
    · obtain ⟨vm2, hvm2, st2, hk2⟩ := ih _ hk
      exact ⟨vm2, List.mem_cons_of_mem vm hvm2, st2, hk2⟩

theorem vm_check_one_none_interval (cfg : Config) (now : ℚ) (vm : VMRec)
    (st : EngineState) :
    (vm_check_one cfg now none vm st).2.last_vm_cpu_time
        = st.last_vm_cpu_time ∧
    ∀ k ∈ (vm_check_one cfg now none vm st).1, k = AKey.vm_mem vm.name := by
  rcases hmax : parseNum vm.maxMemKB with u | a
  · cases u
    rw [vm_check_one_err cfg now none vm st (Or.inl hmax)]
    exact ⟨rfl, by simp⟩
  · rcases hmem : parseNum vm.memKB with u | b
    · cases u
      rw [vm_check_one_err cfg now none vm st (Or.inr (Or.inl hmem))]
      exact ⟨rfl, by simp⟩
    · rcases hct : parseNum vm.cpuTime with u | c
      · cases u
        rw [vm_check_one_err cfg now none vm st (Or.inr (Or.inr hct))]
        exact ⟨rfl, by simp⟩
      · rw [vm_check_one_eq_body cfg now none vm st a b c hmax hmem hct]
        constructor
        · rfl
        · intro k hk
          simp only [vm_check_body, vm_cpu_percent_from_delta,
            List.mem_append] at hk
          rcases hk with (hk | hk) | hk
          · exact absurd hk (by simp [vm_cpu_alert_step])
          · exact vm_mem_alert_step_keys cfg now vm.name _ _ k hk
          · split at hk <;> simp at hk

theorem vm_checks_list_none_interval (cfg : Config) (now : ℚ)
    (l : List VMRec) (st : EngineState) :
    (vm_checks_list cfg now none l st).2.last_vm_cpu_time
        = st.last_vm_cpu_time ∧
    ∀ k ∈ (vm_checks_list cfg now none l st).1,
      ∃ vm ∈ l, k = AKey.vm_mem vm.name := by
  induction l generalizing st with
  | nil => exact ⟨rfl, by simp [vm_checks_list]⟩
  | cons vm vms ih =>
    obtain ⟨h1, h2⟩ := vm_check_one_none_interval cfg now vm st
    obtain ⟨ih1, ih2⟩ := ih (vm_check_one cfg now none vm st).2
    constructor
    · show (vm_checks_list cfg now none vms
          (vm_check_one cfg now none vm st).2).2.last_vm_cpu_time = _
      rw [ih1, h1]
    · intro k hk
      simp only [vm_checks_list, List.mem_append] at hk
      rcases hk with hk | hk
      · exact ⟨vm, List.mem_cons_self vm vms, h2 k hk⟩
      · obtain ⟨vm2, hvm2, hk2⟩ := ih2 k hk
        exact ⟨vm2, List.mem_cons_of_mem vm hvm2, hk2⟩

theorem vm_checks_list_skip (cfg : Config) (now : ℚ) (i : Option ℚ)
    (pre post : List VMRec) (vm : VMRec)
    (h : parseNum vm.maxMemKB = Except.error ()
      ∨ parseNum vm.memKB = Except.error ()
      ∨ parseNum vm.cpuTime = Except.error ())
    (st : EngineState) :
    vm_checks_list cfg now i (pre ++ vm :: post) st
      = vm_checks_list cfg now i (pre ++ post) st := by
  induction pre generalizing st with
  | nil =>
    simp only [List.nil_append, vm_checks_list]
    rw [vm_check_one_err cfg now i vm st h]
    simp
  | cons q pre2 ih =>
    simp only [List.cons_append, vm_checks_list, List.append_eq]
    rw [ih]

theorem sort_procs_trans :
    ∀ a b c : ProcRec, (fun a b => decide (b.cpu ≤ a.cpu)) a b = true →
      (fun a b => decide (b.cpu ≤ a.cpu)) b c = true →
      (fun a b => decide (b.cpu ≤ a.cpu)) a c = true := by
  intro a b c hab hbc
  simp only [decide_eq_true_eq] at *
  exact le_trans hbc hab

theorem sort_procs_total :
    ∀ a b : ProcRec, ((fun a b => decide (b.cpu ≤ a.cpu)) a b
      || (fun a b => decide (b.cpu ≤ a.cpu)) b a) = true := by
  intro a b
  simp only [Bool.or_eq_true, decide_eq_true_eq]
  exact le_total b.cpu a.cpu

theorem check_and_alert_key_origin (cfg : Config) (now : ℚ)
    (snap : Snapshot) (st : EngineState) (k : AKey)
    (hk : k ∈ (check_and_alert cfg now snap st).1) :
    k = AKey.host_cpu ∨ k = AKey.host_mem ∨
    (∃ q ∈ (sort_procs snap.processes).take 20,
      k = AKey.proc_cpu q.pid ∨ k = AKey.proc_mem q.pid) ∨
    (∃ vm ∈ snap.vms, ∃ st2,
      k ∈ (vm_check_one cfg now (snapshot_interval cfg snap) vm st2).1) := by
  simp only [check_and_alert, List.mem_append] at hk
  rcases hk with (hk | hk) | hk
  · rcases host_checks_keys cfg now snap.host _ k hk with h | h
    · exact Or.inl h
    · exact Or.inr (Or.inl h)
  · refine Or.inr (Or.inr (Or.inl ?_))
    exact proc_checks_list_keys cfg now _ _ k hk
  · exact Or.inr (Or.inr (Or.inr (vm_checks_list_keys cfg now _ _ _ k hk)))

/-- C5: the process pass evaluates exactly the 20 records of highest
`cpu`: the sorted list is pairwise descending on `cpu`, a permutation of
the input, and stable (an input-ordered pair with equal `cpu` keeps its
order); a top-20 record at or above the CPU threshold with a fresh
throttle entry alerts, and a record ranked 21st or lower never produces
a process CPU or memory alert in the whole evaluation, whatever its
metric values. -/
theorem C5_process_cap (cfg : Config) (now : ℚ) (snap : Snapshot)
    (st : EngineState) :
    (sort_procs snap.processes).Pairwise (fun a b => b.cpu ≤ a.cpu) ∧
    (sort_procs snap.processes).Perm snap.processes ∧
    (∀ a b : ProcRec, [a, b].Sublist snap.processes → a.cpu = b.cpu →
      [a, b].Sublist (sort_procs snap.processes)) ∧
    (∀ (p : ProcRec) (m : ThrottleMap),
      p ∈ (sort_procs snap.processes).take 20 →
      throttle_window cfg ≤ now →
      (snap.processes.map ProcRec.pid).Nodup →
      m (AKey.proc_cpu p.pid) = none →
      cfg.process_cpu_percent.getD 100 ≤ p.cpu →
      AKey.proc_cpu p.pid ∈ (proc_checks cfg now snap.processes m).1) ∧
    (∀ p : ProcRec, (snap.processes.map ProcRec.pid).Nodup →
      p ∈ (sort_procs snap.processes).drop 20 →
      AKey.proc_cpu p.pid ∉ (check_and_alert cfg now snap st).1 ∧
      AKey.proc_mem p.pid ∉ (check_and_alert cfg now snap st).1) := by
  have hperm : (sort_procs snap.processes).Perm snap.processes :=
    List.mergeSort_perm snap.processes _
  refine ⟨?_, hperm, ?_, ?_, ?_⟩
  · have h := @List.sorted_mergeSort ProcRec (fun a b => decide (b.cpu ≤ a.cpu))
      sort_procs_trans sort_procs_total snap.processes
    exact h.imp fun hab => of_decide_eq_true hab
  · intro a b hsub heq
    exact List.pair_sublist_mergeSort sort_procs_trans sort_procs_total
      (decide_eq_true (by rw [heq])) hsub
  · intro p m hp hw hnodup hfresh hthr
    have hnodup2 : ((sort_procs snap.processes).map ProcRec.pid).Nodup :=
      ((hperm.map ProcRec.pid).nodup_iff).mpr hnodup
    refine proc_checks_list_hit cfg now hw _ m p hp hthr hfresh ?_
    intro q hq
    by_cases hqp : q.pid = p.pid
    · exact Or.inl (List.inj_on_of_nodup_map hnodup2
        (List.take_subset 20 _ hq) (List.take_subset 20 _ hp) hqp)
    · exact Or.inr hqp
  · intro p hnodup hpdrop
    have hnodup2 : ((sort_procs snap.processes).map ProcRec.pid).Nodup :=
      ((hperm.map ProcRec.pid).nodup_iff).mpr hnodup
    have hnodup3 : (sort_procs snap.processes).Nodup :=
      List.Nodup.of_map ProcRec.pid hnodup2
    have hdisj : ((sort_procs snap.processes).take 20).Disjoint
        ((sort_procs snap.processes).drop 20) := by
      have h := List.take_append_drop 20 (sort_procs snap.processes)
      rw [← h] at hnodup3
      exact (List.nodup_append.mp hnodup3).2.2
    have hmain : ∀ q ∈ (sort_procs snap.processes).take 20,
        q.pid ≠ p.pid := by
      intro q hq hqp
      have : q = p := List.inj_on_of_nodup_map hnodup2
        (List.take_subset 20 _ hq) (List.drop_subset 20 _ hpdrop) hqp
      exact hdisj hq (this ▸ hpdrop)
    constructor
    · intro hk
      rcases check_and_alert_key_origin cfg now snap st _ hk with
        h | h | ⟨q, hq, h | h⟩ | ⟨vm, _, st2, h⟩
      · cases h
      · cases h
      · injection h with h2
        exact hmain q hq h2.symm
      · cases h
      · rcases vm_check_one_keys cfg now _ vm st2 _ h with h2 | h2 <;>
          cases h2
    · intro hk
      rcases check_and_alert_key_origin cfg now snap st _ hk with
        h | h | ⟨q, hq, h | h⟩ | ⟨vm, _, st2, h⟩
      · cases h
      · cases h
      · cases h
      · injection h with h2
        exact hmain q hq h2.symm
      · rcases vm_check_one_keys cfg now _ vm st2 _ h with h2 | h2 <;>
          cases h2

/-- Witness for C5: with two processes the positive branch fires for the
top one. -/
theorem C5_witness :
    (⟨1, "a", 50, 0⟩ : ProcRec) ∈
      (sort_procs [⟨1, "a", 50, 0⟩, ⟨2, "b", 10, 0⟩]).take 20 ∧
    AKey.proc_cpu 1 ∈ (proc_checks
      ⟨none, none, none, some 40, none, none, none, none, none⟩ 100
      [⟨1, "a", 50, 0⟩, ⟨2, "b", 10, 0⟩] (fun _ => none)).1 := by
  have hsort : sort_procs [⟨1, "a", 50, 0⟩, ⟨2, "b", 10, 0⟩]
      = [⟨1, "a", 50, 0⟩, ⟨2, "b", 10, 0⟩] :=
    List.mergeSort_of_sorted (by decide)
  constructor
  · rw [hsort]
    decide
  · exact ((C5_process_cap
      ⟨none, none, none, some 40, none, none, none, none, none⟩ 100
      ⟨none, [⟨1, "a", 50, 0⟩, ⟨2, "b", 10, 0⟩], [], none⟩
      ⟨fun _ => none, fun _ => none⟩).2.2.2.1
      ⟨1, "a", 50, 0⟩ (fun _ => none)
      (by rw [show sort_procs ((⟨none, [⟨1, "a", 50, 0⟩, ⟨2, "b", 10, 0⟩],
          [], none⟩ : Snapshot).processes) = _ from hsort]; decide)
      (by norm_num [throttle_window]) (by decide) rfl (by norm_num))

/-- C1: the claim says the stored baseline is overwritten with the
incoming cumulative value on every call, *including* calls with an
absent interval.  Counterexample: with baseline 10 stored for `"a"`, a
call with value 5 and interval `None` returns UNAVAILABLE and leaves the
baseline at 10, not 5 (the source returns before touching the map when
`interval_seconds is None or interval_seconds <= 0`). -/
theorem C1_counterexample :
    ((vm_cpu_percent_from_delta (fun _ => some 10) "a" 5 none).1 = none ∧
      (vm_cpu_percent_from_delta (fun _ => some 10) "a" 5 none).2 "a" = some 10) ∧
    some (10 : ℤ) ≠ some 5 := by
  exact ⟨⟨rfl, rfl⟩, by decide⟩

/-- C1 (amended): after a call with a positive interval the stored
baseline for the name equals the cumulative value passed in; a call with
an absent, zero or negative interval returns UNAVAILABLE and leaves the
whole baseline map unchanged. -/
theorem C1_amended (m : VmTimeMap) (name : String) (v : ℤ) (i : ℚ) :
    (0 < i → (vm_cpu_percent_from_delta m name v (some i)).2 name = some v) ∧
    (i ≤ 0 → (vm_cpu_percent_from_delta m name v (some i)).1 = none ∧
      (vm_cpu_percent_from_delta m name v (some i)).2 = m) ∧
    ((vm_cpu_percent_from_delta m name v none).1 = none ∧
      (vm_cpu_percent_from_delta m name v none).2 = m) := by
  refine ⟨?_, ?_, rfl, rfl⟩
  · intro hi
    simp only [vm_cpu_percent_from_delta]
    rw [if_neg (not_le.mpr hi)]
    match hm : m name with
    | none => simp [vmtime_map_update_self]
    | some prev =>
      by_cases hd : v - prev ≤ 0 <;> simp [hd, vmtime_map_update_self]
  · intro hi
    simp only [vm_cpu_percent_from_delta]
    rw [if_pos hi]
    exact ⟨rfl, rfl⟩

theorem C1_amended_witness :
    (0 : ℚ) < 2 ∧
    (vm_cpu_percent_from_delta (fun _ => none) "a" 5 (some 2)).2 "a" = some 5 :=
  ⟨by norm_num, (C1_amended (fun _ => none) "a" 5 2).1 (by norm_num)⟩

/-- C2: the claim says `allow` returns true whenever no prior emission
timestamp exists for the key.  Counterexample: on a fresh key the source
defaults the last emission to `0` (`self.last_alert_time.get(key, 0)`),
so with the default 60-second window a call at time `0` on a fresh key
returns false (`0 - 0 < 60`), and the first call of the claimed
true/false/true sequence at `t = 0`, `ε = 1`, `w = 60` is false. -/
theorem C2_counterexample :
    ((fun _ => none : ThrottleMap) AKey.host_cpu = none) ∧
    (throttle_ok cfg0 (fun _ => none) AKey.host_cpu 0).1 = false := by
  refine ⟨rfl, ?_⟩
  simp [throttle_ok, throttle_window, cfg0]

/-- C2 (amended): `_throttle_ok` treats a missing timestamp as `0`: it
returns true and records `now` iff `now − last ≥ window` with `last`
defaulting to `0`, and otherwise returns false leaving the map
unchanged.  Consequently the true/false/true sequence at `t`, `t+ε`
(`ε < w`) and `t+w` holds for every fresh key provided `t ≥ w` — which
is always the case for real wall-clock times. -/
theorem C2_amended (cfg : Config) (m : ThrottleMap) (key : AKey)
    (now t e : ℚ) :
    (throttle_window cfg ≤ now - (m key).getD 0 →
      (throttle_ok cfg m key now).1 = true ∧
      (throttle_ok cfg m key now).2 key = some now ∧
      ∀ k2, k2 ≠ key → (throttle_ok cfg m key now).2 k2 = m k2) ∧
    (now - (m key).getD 0 < throttle_window cfg →
      (throttle_ok cfg m key now).1 = false ∧
      (throttle_ok cfg m key now).2 = m) ∧
    (m key = none → throttle_window cfg ≤ t → e < throttle_window cfg →
      (throttle_ok cfg m key t).1 = true ∧
      (throttle_ok cfg (throttle_ok cfg m key t).2 key (t + e)).1 = false ∧
      (throttle_ok cfg
        (throttle_ok cfg (throttle_ok cfg m key t).2 key (t + e)).2 key
        (t + throttle_window cfg)).1 = true) := by
  refine ⟨?_, ?_, ?_⟩
  · intro h
    unfold throttle_ok
    rw [if_neg (by linarith)]
    exact ⟨rfl, throttle_map_update_self m key now,
      fun k2 hk2 => throttle_map_update_other m key k2 now hk2⟩
  · intro h
    unfold throttle_ok
    rw [if_pos (by linarith)]
    exact ⟨rfl, rfl⟩
  · intro hfresh hw he
    have h0 : (m key).getD 0 = 0 := by rw [hfresh]; rfl
    have h1 : throttle_ok cfg m key t = (true, m.update key t) := by
      unfold throttle_ok
      rw [if_neg (by rw [h0]; linarith)]
    have h2 : throttle_ok cfg (m.update key t) key (t + e) =
        (false, m.update key t) := by
      unfold throttle_ok
      rw [throttle_map_update_self, if_pos]
      show t + e - (some t).getD 0 < throttle_window cfg
      simp only [Option.getD_some]
      linarith
    refine ⟨by rw [h1], by rw [h1, h2], ?_⟩
    rw [h1, h2]
    show (throttle_ok cfg (m.update key t) key (t + throttle_window cfg)).1 = true
    unfold throttle_ok
    rw [throttle_map_update_self, if_neg]
    show ¬ t + throttle_window cfg - (some t).getD 0 < throttle_window cfg
    simp only [Option.getD_some]
    linarith

theorem C2_amended_witness :
    throttle_window cfg0 ≤ (100 : ℚ) - ((fun _ => none : ThrottleMap) AKey.host_cpu).getD 0 ∧
    (throttle_ok cfg0 (fun _ => none) AKey.host_cpu 100).1 = true :=
  ⟨by norm_num [throttle_window, cfg0],
    ((C2_amended cfg0 (fun _ => none) AKey.host_cpu 100 0 0).1
      (by norm_num [throttle_window, cfg0])).1⟩

/-- C3: with a positive interval, the first call for a name stores the
value as baseline and returns UNAVAILABLE; a subsequent call with a
strictly larger value and positive interval returns exactly
`(delta_ns / 1e9) / interval_seconds * 100` — unclamped. -/
theorem C3_delta_first_sample (m : VmTimeMap) (name : String) (v w : ℤ)
    (i j : ℚ) (hfresh : m name = none) (hi : 0 < i) (hj : 0 < j)
    (hlt : v < w) :
    (vm_cpu_percent_from_delta m name v (some i)).1 = none ∧
    (vm_cpu_percent_from_delta m name v (some i)).2 name = some v ∧
    (vm_cpu_percent_from_delta
        (vm_cpu_percent_from_delta m name v (some i)).2 name w (some j)).1
      = some (((w - v : ℤ) : ℚ) / 1000000000 / j * 100) := by
  have h1 : vm_cpu_percent_from_delta m name v (some i) =
      (none, m.update name v) := by
    simp only [vm_cpu_percent_from_delta]
    rw [if_neg (not_le.mpr hi), hfresh]
  refine ⟨by rw [h1], by rw [h1]; exact vmtime_map_update_self m name v, ?_⟩
  rw [h1]
  show (vm_cpu_percent_from_delta (m.update name v) name w (some j)).1 = _
  simp only [vm_cpu_percent_from_delta]
  rw [if_neg (not_le.mpr hj), vmtime_map_update_self]
  simp only [if_neg (by omega : ¬ w - v ≤ 0)]

/-- Witness for C3, on the spec's own example: `estimate("vmA", 1e9, 2)`
then `estimate("vmA", 3e9, 2)` returns `100`; and a larger delta gives an
unclamped `250`. -/
theorem C3_witness :
    (vm_cpu_percent_from_delta (fun _ => none) "vmA" 1000000000 (some 2)).1 = none ∧
    (vm_cpu_percent_from_delta
        (vm_cpu_percent_from_delta (fun _ => none) "vmA" 1000000000 (some 2)).2
        "vmA" 3000000000 (some 2)).1 = some 100 ∧
    (vm_cpu_percent_from_delta
        (vm_cpu_percent_from_delta (fun _ => none) "vmA" 1000000000 (some 2)).2
        "vmA" 6000000000 (some 2)).1 = some 250 := by
  have h1 := C3_delta_first_sample (fun _ => none) "vmA" 1000000000 3000000000
    2 2 rfl (by norm_num) (by norm_num) (by norm_num)
  have h2 := C3_delta_first_sample (fun _ => none) "vmA" 1000000000 6000000000
    2 2 rfl (by norm_num) (by norm_num) (by norm_num)
  refine ⟨h1.1, ?_, ?_⟩
  · rw [h1.2.2]; norm_num
  · rw [h2.2.2]; norm_num

/-- C4: when a baseline exists and the new value minus the baseline is
≤ 0, the call returns UNAVAILABLE and the stored baseline becomes the new
value. -/
theorem C4_delta_reset (m : VmTimeMap) (name : String) (prev v : ℤ) (i : ℚ)
    (hprev : m name = some prev) (hi : 0 < i) (hle : v ≤ prev) :
    (vm_cpu_percent_from_delta m name v (some i)).1 = none ∧
    (vm_cpu_percent_from_delta m name v (some i)).2 name = some v := by
  simp only [vm_cpu_percent_from_delta]
  rw [if_neg (not_le.mpr hi), hprev]
  simp only [if_pos (by omega : v - prev ≤ 0)]
  simp [vmtime_map_update_self]

/-- Witness for C4, on the spec's example: after a baseline of 3e9, the
call `estimate("vmA", 5e8, 2)` returns UNAVAILABLE and the baseline
becomes 5e8. -/
theorem C4_witness :
    ((fun _ => some 3000000000 : VmTimeMap) "vmA" = some 3000000000) ∧
    (vm_cpu_percent_from_delta (fun _ => some 3000000000) "vmA" 500000000
        (some 2)).1 = none ∧
    (vm_cpu_percent_from_delta (fun _ => some 3000000000) "vmA" 500000000
        (some 2)).2 "vmA" = some 500000000 :=
  ⟨rfl, C4_delta_reset (fun _ => some 3000000000) "vmA" 3000000000 500000000 2
    rfl (by norm_num) (by norm_num)⟩

theorem vm_check_one_max0_keys (cfg : Config) (now : ℚ) (i : Option ℚ)
    (vm : VMRec) (st : EngineState)
    (h0 : parseNum vm.maxMemKB = Except.ok 0) :
    ∀ k ∈ (vm_check_one cfg now i vm st).1, k = AKey.vm_cpu vm.name := by
  intro k hk
  rcases hmem : parseNum vm.memKB with u | b
  · cases u
    rw [vm_check_one_err cfg now i vm st (Or.inr (Or.inl hmem))] at hk
    simp at hk
  · rcases hct : parseNum vm.cpuTime with u | c
    · cases u
      rw [vm_check_one_err cfg now i vm st (Or.inr (Or.inr hct))] at hk
      simp at hk
    · rw [vm_check_one_eq_body cfg now i vm st 0 b c h0 hmem hct] at hk
      simp only [vm_check_body, List.mem_append] at hk
      rcases hk with (hk | hk) | hk
      · exact vm_cpu_alert_step_keys cfg now vm.name _ _ k hk
      · rw [show vm_mem_percent b 0 = none from by
          simp [vm_mem_percent]] at hk
        exact absurd hk (by simp [vm_mem_alert_step])
      · exact absurd hk (by split <;> simp)

theorem vm_check_body_cpu_hit (cfg : Config) (now : ℚ) (i : ℚ)
    (vm : VMRec) (a b c : ℤ) (st : EngineState) (prev : ℤ)
    (hprev : st.last_vm_cpu_time vm.name = some prev) (hi : 0 < i)
    (hlt : prev < c)
    (hthr : cfg.vm_cpu_percent.getD 100
      ≤ ((c - prev : ℤ) : ℚ) / 1000000000 / i * 100)
    (hfresh : st.last_alert_time (AKey.vm_cpu vm.name) = none)
    (hw : throttle_window cfg ≤ now) :
    AKey.vm_cpu vm.name ∈ (vm_check_body cfg now (some i) vm a b c st).1 := by
  have hcr : (vm_cpu_percent_from_delta st.last_vm_cpu_time vm.name c
      (some i)).1 = some (((c - prev : ℤ) : ℚ) / 1000000000 / i * 100) := by
    rw [vm_cpu_delta_ok st.last_vm_cpu_time vm.name prev c i hprev hi hlt]
  simp only [vm_check_body, List.mem_append]
  refine Or.inl (Or.inl ?_)
  rw [hcr]
  exact vm_cpu_alert_step_hit cfg now vm.name _ st.last_alert_time hfresh
    hw hthr

theorem vm_check_body_mem_hit (cfg : Config) (now : ℚ) (i : Option ℚ)
    (vm : VMRec) (a b c : ℤ) (st : EngineState) (ha : 0 < a)
    (hthr : cfg.vm_memory_percent.getD 100 ≤ (b : ℚ) / (a : ℚ) * 100)
    (hfresh : st.last_alert_time (AKey.vm_mem vm.name) = none)
    (hw : throttle_window cfg ≤ now) :
    AKey.vm_mem vm.name ∈ (vm_check_body cfg now i vm a b c st).1 := by
  have hmemp : vm_mem_percent b a = some ((b : ℚ) / (a : ℚ) * 100) := by
    simp [vm_mem_percent, ha]
  simp only [vm_check_body, List.mem_append]
  refine Or.inl (Or.inr ?_)
  rw [hmemp]
  have hr1 : (vm_cpu_alert_step cfg now vm.name
      (vm_cpu_percent_from_delta st.last_vm_cpu_time vm.name c i).1
      st.last_alert_time).2 (AKey.vm_mem vm.name) = none := by
    rw [vm_cpu_alert_step_map_other cfg now vm.name _ _ _ (by simp)]
    exact hfresh
  exact vm_mem_alert_step_hit cfg now vm.name _ _ hr1 hw hthr

/-- C6: for a VM record whose `maxMemKB` parses to 0 the memory percent
is `None` (the division is guarded by `if max_mem_kb > 0`, so it is
never performed), the record's own evaluation can only emit a CPU alert,
and — with VM names unique in the snapshot — the whole evaluation never
emits a VM memory alert for that VM, whatever `memKB` and the configured
memory threshold. -/
theorem C6_vm_mem_guard (cfg : Config) (now : ℚ) (i : Option ℚ)
    (vm : VMRec) (st : EngineState) (snap : Snapshot) :
    (∀ mem_kb : ℤ, vm_mem_percent mem_kb 0 = none) ∧
    (parseNum vm.maxMemKB = Except.ok 0 →
      ∀ k ∈ (vm_check_one cfg now i vm st).1, k = AKey.vm_cpu vm.name) ∧
    (parseNum vm.maxMemKB = Except.ok 0 → vm ∈ snap.vms →
      (snap.vms.map VMRec.name).Nodup →
      AKey.vm_mem vm.name ∉ (check_and_alert cfg now snap st).1) := by
  refine ⟨fun mem_kb => by simp [vm_mem_percent],
    fun h0 => vm_check_one_max0_keys cfg now i vm st h0, ?_⟩
  intro h0 hvm hnodup hk
  rcases check_and_alert_key_origin cfg now snap st _ hk with
    h | h | ⟨q, _, h | h⟩ | ⟨vm2, hvm2, st2, h⟩
  · cases h
  · cases h
  · cases h
  · cases h
  · rcases vm_check_one_keys cfg now _ vm2 st2 _ h with h2 | h2
    · cases h2
    · injection h2 with hname
      have heq : vm2 = vm := List.inj_on_of_nodup_map hnodup hvm2 hvm
        hname.symm
      subst heq
      have := vm_check_one_max0_keys cfg now _ vm2 st2 h0 _ h
      cases this

/-- Witness for C6: a VM with `maxMemKB = 0` and huge `memKB` produces
no VM memory alert. -/
theorem C6_witness :
    parseNum (RawNum.num 0) = Except.ok 0 ∧
    AKey.vm_mem "v" ∉ (check_and_alert cfg0 100
      ⟨none, [],
        [⟨"v", 1, RawNum.num 0, RawNum.num 999999, RawNum.num 0⟩], none⟩
      ⟨fun _ => none, fun _ => none⟩).1 :=
  ⟨rfl, (C6_vm_mem_guard cfg0 100 none
      ⟨"v", 1, RawNum.num 0, RawNum.num 999999, RawNum.num 0⟩
      ⟨fun _ => none, fun _ => none⟩
      ⟨none, [],
        [⟨"v", 1, RawNum.num 0, RawNum.num 999999, RawNum.num 0⟩],
        none⟩).2.2 rfl
    (List.mem_cons_self _ _) (by simp)⟩

/-- C7: phase isolation.  A VM record on which `int()` raises is skipped
with no alert and no state change, so evaluating a VM list containing it
equals evaluating the list with that record removed — the remaining VMs
are still evaluated.  A malformed host is caught by the host-level
`try`, and the whole evaluation proceeds exactly as if `host` were
absent, so the process pass and the VM pass still run. -/
theorem C7_isolation (cfg : Config) (now : ℚ) (i : Option ℚ)
    (pre post : List VMRec) (vm : VMRec) (st : EngineState)
    (procs : List ProcRec) (vms : List VMRec) (itv : Option (Option ℚ))
    (h : parseNum vm.maxMemKB = Except.error ()
      ∨ parseNum vm.memKB = Except.error ()
      ∨ parseNum vm.cpuTime = Except.error ()) :
    vm_checks_list cfg now i (pre ++ vm :: post) st
      = vm_checks_list cfg now i (pre ++ post) st ∧
    check_and_alert cfg now ⟨some HostData.malformed, procs, vms, itv⟩ st
      = check_and_alert cfg now ⟨none, procs, vms, itv⟩ st := by
  exact ⟨vm_checks_list_skip cfg now i pre post vm h st, rfl⟩

/-- Witness for C7: a VM whose `cpuTime` is junk is skipped and the
well-formed VM after it is still evaluated. -/
theorem C7_witness :
    vm_checks_list cfg0 100 none
        ([] ++ (⟨"bad", 1, RawNum.num 1, RawNum.num 1, RawNum.junk⟩ : VMRec)
          :: [⟨"good", 1, RawNum.num 2, RawNum.num 1, RawNum.num 0⟩])
        ⟨fun _ => none, fun _ => none⟩
      = vm_checks_list cfg0 100 none
        ([] ++ [(⟨"good", 1, RawNum.num 2, RawNum.num 1, RawNum.num 0⟩ : VMRec)])
        ⟨fun _ => none, fun _ => none⟩ :=
  (C7_isolation cfg0 100 none [] [⟨"good", 1, RawNum.num 2, RawNum.num 1,
      RawNum.num 0⟩] ⟨"bad", 1, RawNum.num 1, RawNum.num 1, RawNum.junk⟩
    ⟨fun _ => none, fun _ => none⟩ [] [] none (Or.inr (Or.inr rfl))).1

theorem vm_check_one_delta_irrel (cfg : Config) (x : ℤ) (now : ℚ)
    (i : Option ℚ) (vm : VMRec) (st : EngineState) :
    vm_check_one { cfg with vm_cpu_time_delta_ns := some x } now i vm st
      = vm_check_one { cfg with vm_cpu_time_delta_ns := none } now i vm st := by
  unfold vm_check_one
  rcases parseNum vm.maxMemKB with u | a
  · rfl
  · rcases parseNum vm.memKB with u | b
    · rfl
    · rcases parseNum vm.cpuTime with u | c
      · rfl
      · rfl

theorem vm_checks_list_delta_irrel (cfg : Config) (x : ℤ) (now : ℚ)
    (i : Option ℚ) (l : List VMRec) (st : EngineState) :
    vm_checks_list { cfg with vm_cpu_time_delta_ns := some x } now i l st
      = vm_checks_list { cfg with vm_cpu_time_delta_ns := none } now i l st := by
  induction l generalizing st with
  | nil => rfl
  | cons vm vms ih =>
    simp only [vm_checks_list]
    rw [vm_check_one_delta_irrel cfg x now i vm st, ih]

/-- C8: the `vm_alerts.cpu_time_delta_ns` option is dead: for every
snapshot, clock reading and engine state, evaluation with the option set
emits exactly the same alerts and produces exactly the same throttle and
baseline state as evaluation with the option absent. -/
theorem C8_dead_option (cfg : Config) (x : ℤ) (now : ℚ) (snap : Snapshot)
    (st : EngineState) :
    check_and_alert { cfg with vm_cpu_time_delta_ns := some x } now snap st
      = check_and_alert { cfg with vm_cpu_time_delta_ns := none } now snap st := by
  have hhost : host_checks { cfg with vm_cpu_time_delta_ns := some x } now
      snap.host st.last_alert_time
      = host_checks { cfg with vm_cpu_time_delta_ns := none } now
        snap.host st.last_alert_time := by
    rcases snap.host with _ | hd
    · rfl
    · rcases hd with hm | _ <;> rfl
  have hproc : ∀ (l : List ProcRec) (m : ThrottleMap),
      proc_checks_list { cfg with vm_cpu_time_delta_ns := some x } now l m
        = proc_checks_list { cfg with vm_cpu_time_delta_ns := none } now l m := by
    intro l
    induction l with
    | nil => intro m; rfl
    | cons p ps ih =>
      intro m
      simp only [proc_checks_list]
      rw [show proc_check_one { cfg with vm_cpu_time_delta_ns := some x } now
          p m = proc_check_one { cfg with vm_cpu_time_delta_ns := none } now
          p m from rfl, ih]
  have hitv : snapshot_interval { cfg with vm_cpu_time_delta_ns := some x }
      snap = snapshot_interval { cfg with vm_cpu_time_delta_ns := none }
      snap := by
    rcases hv : snap.interval with _ | v <;> simp [snapshot_interval, hv]
  simp only [check_and_alert, proc_checks]
  rw [hhost, hproc, hitv, vm_checks_list_delta_irrel]

/-- C9: every threshold comparison of the engine is inclusive (`>=`): in
each of the six dimensions a metric value exactly equal to the
configured threshold triggers the alert when the throttle entry for its
key is fresh and the clock is past the window. -/
theorem C9_inclusive (cfg : Config) (now : ℚ)
    (hw : throttle_window cfg ≤ now) :
    (∀ (h : HostMetrics) (m : ThrottleMap), m AKey.host_cpu = none →
      h.cpu_percent = cfg.host_cpu_percent.getD 100 →
      AKey.host_cpu ∈ (host_checks cfg now (some (HostData.valid h)) m).1) ∧
    (∀ (h : HostMetrics) (m : ThrottleMap), m AKey.host_mem = none →
      h.mem_percent = cfg.host_memory_percent.getD 100 →
      AKey.host_mem ∈ (host_checks cfg now (some (HostData.valid h)) m).1) ∧
    (∀ (p : ProcRec) (m : ThrottleMap), m (AKey.proc_cpu p.pid) = none →
      p.cpu = cfg.process_cpu_percent.getD 100 →
      AKey.proc_cpu p.pid ∈ (proc_check_one cfg now p m).1) ∧
    (∀ (p : ProcRec) (m : ThrottleMap), m (AKey.proc_mem p.pid) = none →
      p.mem_percent = cfg.process_memory_percent.getD 100 →
      AKey.proc_mem p.pid ∈ (proc_check_one cfg now p m).1) ∧
    (∀ (vm : VMRec) (st : EngineState) (a b c prev : ℤ) (i : ℚ),
      parseNum vm.maxMemKB = Except.ok a →
      parseNum vm.memKB = Except.ok b →
      parseNum vm.cpuTime = Except.ok c →
      st.last_vm_cpu_time vm.name = some prev → 0 < i → prev < c →
      ((c - prev : ℤ) : ℚ) / 1000000000 / i * 100
        = cfg.vm_cpu_percent.getD 100 →
      st.last_alert_time (AKey.vm_cpu vm.name) = none →
      AKey.vm_cpu vm.name ∈ (vm_check_one cfg now (some i) vm st).1) ∧
    (∀ (vm : VMRec) (st : EngineState) (a b c : ℤ) (i : Option ℚ),
      parseNum vm.maxMemKB = Except.ok a →
      parseNum vm.memKB = Except.ok b →
      parseNum vm.cpuTime = Except.ok c → 0 < a →
      (b : ℚ) / (a : ℚ) * 100 = cfg.vm_memory_percent.getD 100 →
      st.last_alert_time (AKey.vm_mem vm.name) = none →
      AKey.vm_mem vm.name ∈ (vm_check_one cfg now i vm st).1) := by
  refine ⟨?_, ?_, ?_, ?_, ?_, ?_⟩
  · intro h m hfresh heq
    simp only [host_checks, List.mem_append]
    left
    rw [if_pos (ge_of_eq heq), throttle_ok_hit cfg m _ now hfresh hw]
    simp
  · intro h m hfresh heq
    simp only [host_checks, List.mem_append]
    right
    by_cases hc : h.cpu_percent ≥ cfg.host_cpu_percent.getD 100
    · rw [if_pos hc, if_pos (ge_of_eq heq)]
      have hpres : ((if (throttle_ok cfg m AKey.host_cpu now).1 = true then
          [AKey.host_cpu] else ([] : List AKey),
          (throttle_ok cfg m AKey.host_cpu now).2) :
          List AKey × ThrottleMap).2 AKey.host_mem = none := by
        show (throttle_ok cfg m AKey.host_cpu now).2 AKey.host_mem = none
        rw [throttle_ok_map_other cfg m _ now _ (by simp)]
        exact hfresh
      rw [throttle_ok_hit cfg _ _ now hpres hw]
      simp
    · rw [if_neg hc, if_pos (ge_of_eq heq)]
      rw [throttle_ok_hit cfg _ _ now (show (([] : List AKey), m).2
        AKey.host_mem = none from hfresh) hw]
      simp
  · intro p m hfresh heq
    simp only [proc_check_one, List.mem_append]
    left
    rw [if_pos (ge_of_eq heq), throttle_ok_hit cfg m _ now hfresh hw]
    simp
  · intro p m hfresh heq
    simp only [proc_check_one, List.mem_append]
    right
    by_cases hc : p.cpu ≥ cfg.process_cpu_percent.getD 100
    · rw [if_pos hc, if_pos (ge_of_eq heq)]
      have hpres : ((if (throttle_ok cfg m (AKey.proc_cpu p.pid) now).1 = true
          then [AKey.proc_cpu p.pid] else ([] : List AKey),
          (throttle_ok cfg m (AKey.proc_cpu p.pid) now).2) :
          List AKey × ThrottleMap).2 (AKey.proc_mem p.pid) = none := by
        show (throttle_ok cfg m (AKey.proc_cpu p.pid) now).2
          (AKey.proc_mem p.pid) = none
        rw [throttle_ok_map_other cfg m _ now _ (by simp)]
        exact hfresh
      rw [throttle_ok_hit cfg _ _ now hpres hw]
      simp
    · rw [if_neg hc, if_pos (ge_of_eq heq)]
      rw [throttle_ok_hit cfg _ _ now (show (([] : List AKey), m).2
        (AKey.proc_mem p.pid) = none from hfresh) hw]
      simp
  · intro vm st a b c prev i h1 h2 h3 hprev hi hlt heq hfresh
    rw [vm_check_one_eq_body cfg now (some i) vm st a b c h1 h2 h3]
    exact vm_check_body_cpu_hit cfg now i vm a b c st prev hprev hi hlt
      (ge_of_eq heq) hfresh hw
  · intro vm st a b c i h1 h2 h3 ha heq hfresh
    rw [vm_check_one_eq_body cfg now i vm st a b c h1 h2 h3]
    exact vm_check_body_mem_hit cfg now i vm a b c st ha
      (ge_of_eq heq) hfresh hw

/-- Witness for C9: in each dimension a metric exactly at the default
threshold of 100 alerts. -/
theorem C9_witness :
    AKey.host_cpu ∈ (host_checks cfg0 100
      (some (HostData.valid ⟨100, 0⟩)) (fun _ => none)).1 ∧
    AKey.host_mem ∈ (host_checks cfg0 100
      (some (HostData.valid ⟨0, 100⟩)) (fun _ => none)).1 ∧
    AKey.proc_cpu 1 ∈ (proc_check_one cfg0 100 ⟨1, "p", 100, 0⟩
      (fun _ => none)).1 ∧
    AKey.proc_mem 2 ∈ (proc_check_one cfg0 100 ⟨2, "q", 0, 100⟩
      (fun _ => none)).1 ∧
    AKey.vm_cpu "v" ∈ (vm_check_one cfg0 100 (some 2)
      ⟨"v", 1, RawNum.num 1, RawNum.num 1, RawNum.num 2000000000⟩
      ⟨fun _ => none, fun _ => some 0⟩).1 ∧
    AKey.vm_mem "w" ∈ (vm_check_one cfg0 100 none
      ⟨"w", 1, RawNum.num 2, RawNum.num 2, RawNum.num 0⟩
      ⟨fun _ => none, fun _ => none⟩).1 := by
  have hw : throttle_window cfg0 ≤ (100 : ℚ) := by
    norm_num [throttle_window, cfg0]
  have h := C9_inclusive cfg0 100 hw
  refine ⟨h.1 ⟨100, 0⟩ (fun _ => none) rfl (by norm_num [cfg0]),
    h.2.1 ⟨0, 100⟩ (fun _ => none) rfl (by norm_num [cfg0]),
    h.2.2.1 ⟨1, "p", 100, 0⟩ (fun _ => none) rfl (by norm_num [cfg0]),
    h.2.2.2.1 ⟨2, "q", 0, 100⟩ (fun _ => none) rfl (by norm_num [cfg0]),
    h.2.2.2.2.1 ⟨"v", 1, RawNum.num 1, RawNum.num 1, RawNum.num 2000000000⟩
      ⟨fun _ => none, fun _ => some 0⟩ 1 1 2000000000 0 2 rfl rfl rfl rfl
      (by norm_num) (by norm_num) (by norm_num [cfg0]) rfl,
    h.2.2.2.2.2 ⟨"w", 1, RawNum.num 2, RawNum.num 2, RawNum.num 0⟩
      ⟨fun _ => none, fun _ => none⟩ 2 2 0 none rfl rfl rfl
      (by norm_num) (by norm_num [cfg0]) rfl⟩

/-- C10: a snapshot whose `interval` key is present but `None` does not
get the `poll_interval` fallback (that applies only when the key is
absent): the effective interval is `None`, so every VM CPU check of the
cycle is suppressed and no VM baseline is written, while VM memory
checks still run. -/
theorem C10_null_interval (cfg : Config) (now : ℚ) (snap : Snapshot)
    (st : EngineState) (hint : snap.interval = some none) :
    snapshot_interval cfg snap = none ∧
    (check_and_alert cfg now snap st).2.last_vm_cpu_time
      = st.last_vm_cpu_time ∧
    (∀ n : String, AKey.vm_cpu n ∉ (check_and_alert cfg now snap st).1) ∧
    (∀ (vm : VMRec) (st2 : EngineState) (a b c : ℤ),
      parseNum vm.maxMemKB = Except.ok a →
      parseNum vm.memKB = Except.ok b →
      parseNum vm.cpuTime = Except.ok c → 0 < a →
      cfg.vm_memory_percent.getD 100 ≤ (b : ℚ) / (a : ℚ) * 100 →
      st2.last_alert_time (AKey.vm_mem vm.name) = none →
      throttle_window cfg ≤ now →
      AKey.vm_mem vm.name ∈ (vm_check_one cfg now none vm st2).1) := by
  have hi : snapshot_interval cfg snap = none := by
    simp [snapshot_interval, hint]
  refine ⟨hi, ?_, ?_, ?_⟩
  · show (vm_checks_list cfg now (snapshot_interval cfg snap) snap.vms
      ⟨(proc_checks cfg now snap.processes
        (host_checks cfg now snap.host st.last_alert_time).2).2,
        st.last_vm_cpu_time⟩).2.last_vm_cpu_time = st.last_vm_cpu_time
    rw [hi]
    exact (vm_checks_list_none_interval cfg now snap.vms _).1
  · intro n hk
    rcases check_and_alert_key_origin cfg now snap st _ hk with
      h | h | ⟨q, _, h | h⟩ | ⟨vm, hvm, st2, h⟩
    · cases h
    · cases h
    · cases h
    · cases h
    · rw [hi] at h
      have h2 := (vm_check_one_none_interval cfg now vm st2).2 _ h
      cases h2
  · intro vm st2 a b c h1 h2 h3 ha hthr hfresh hw
    rw [vm_check_one_eq_body cfg now none vm st2 a b c h1 h2 h3]
    exact vm_check_body_mem_hit cfg now none vm a b c st2 ha hthr hfresh hw

/-- Witness for C10: a snapshot with `interval = None` suppresses the VM
CPU check, keeps the baseline map empty, and still lets a VM memory
alert fire. -/
theorem C10_witness :
    snapshot_interval cfg0
      ⟨none, [], [⟨"v", 1, RawNum.num 2, RawNum.num 2, RawNum.num 5⟩],
        some none⟩ = none ∧
    (check_and_alert cfg0 100
      ⟨none, [], [⟨"v", 1, RawNum.num 2, RawNum.num 2, RawNum.num 5⟩],
        some none⟩
      ⟨fun _ => none, fun _ => none⟩).2.last_vm_cpu_time
        = (fun _ => none : VmTimeMap) ∧
    AKey.vm_mem "v" ∈ (vm_check_one cfg0 100 none
      ⟨"v", 1, RawNum.num 2, RawNum.num 2, RawNum.num 5⟩
      ⟨fun _ => none, fun _ => none⟩).1 := by
  have h := C10_null_interval cfg0 100
    ⟨none, [], [⟨"v", 1, RawNum.num 2, RawNum.num 2, RawNum.num 5⟩],
      some none⟩ ⟨fun _ => none, fun _ => none⟩ rfl
  refine ⟨h.1, h.2.1, ?_⟩
  exact h.2.2.2 ⟨"v", 1, RawNum.num 2, RawNum.num 2, RawNum.num 5⟩
    ⟨fun _ => none, fun _ => none⟩ 2 2 5 rfl rfl rfl (by norm_num)
    (by norm_num [cfg0]) rfl (by norm_num [throttle_window, cfg0])
